import Mathlib

set_option maxRecDepth 8192

/-!
Shallow embedding of the terminal-emulator core (`TerminalLogic`): the
ANSI/VT byte-stream decoder over a 2-D cell grid, the key-to-byte encoder,
and the two interface-layer routines `process_keyboard_input` /
`process_pty_input` from `src/system_interface.cpp`.

The repository ships only the headers, unit tests and callers of
`TerminalLogic`; the class body itself is not under `src/`.  The decoder
and encoder below are therefore modelled from the specification
(spec.md §3, §4.1–§4.3), with every behaviour that the unit tests in
`src/unit_tests.cpp` pin down taken from those tests (noted per
definition).  Integers are `Nat` throughout: the C++ code never relies on
overflow in these paths, and all downward clamps (`max(0, ·)`) coincide
with truncated `Nat` subtraction.
-/

/-- Modelled from the spec: `CharAttr` (spec §3), the per-cell drawing
attributes.  Field names follow `src/unit_tests.cpp` (`fg_r`, `bg_b`, …);
8-bit channels are represented as `Nat`. -/
structure CharAttr where
  fg_r : Nat
  fg_g : Nat
  fg_b : Nat
  bg_r : Nat
  bg_g : Nat
  bg_b : Nat
  deriving DecidableEq, Repr

/-- Default attributes: foreground white (255,255,255), background black. -/
def default_attr : CharAttr := ⟨255, 255, 255, 0, 0, 0⟩

/-- Modelled from the spec: a grid cell (source struct `Char`): a Unicode
code point plus attributes. -/
structure TermChar where
  ch : Nat
  attr : CharAttr
  deriving DecidableEq, Repr

/-- Blank cell with the given attributes: U+0020. -/
def blank_char (a : CharAttr) : TermChar := ⟨0x20, a⟩

/-- Cursor position, 0-based (row, col). -/
structure Cursor where
  row : Nat
  col : Nat
  deriving DecidableEq, Repr

/-- Decoder escape-sequence mode (spec §4.2): NORMAL, ESC, CSI. -/
inductive EscState where
  | NORMAL
  | ESC
  | CSI
  deriving DecidableEq, Repr

/-- Modelled from the spec: the full `TerminalLogic` state (spec §3
"Grid"): the cell matrix, cursor, current drawing attribute, and decoder
state (UTF-8 accumulator, escape mode, escape-sequence buffer).  The
escape buffer holds the raw bytes after ESC, including the leading `[`
of a CSI sequence, matching the unit tests' calls
`parse_ansi_sequence("[2", 'J')`. -/
structure TerminalLogic where
  term_cols : Nat
  term_rows : Nat
  text_buffer : List (List TermChar)
  cursor : Cursor
  current_attr : CharAttr
  esc_state : EscState
  utf8_remaining : Nat
  utf8_acc : Nat
  escape_buffer : List Nat
  deriving DecidableEq, Repr

/-- Freshly constructed state (spec §3 "Lifecycle"): all cells blank,
cursor at origin, default attributes, decoder in NORMAL with empty
accumulators. -/
def TerminalLogic.init (cols rows : Nat) : TerminalLogic :=
  { term_cols := cols
    term_rows := rows
    text_buffer := List.replicate rows (List.replicate cols (blank_char default_attr))
    cursor := ⟨0, 0⟩
    current_attr := default_attr
    esc_state := .NORMAL
    utf8_remaining := 0
    utf8_acc := 0
    escape_buffer := [] }

/-- Replace the cells with index in `[lo, hi)` of a row by `fill`,
starting the count at `i` (helper for the erase operations; mirrors the
C++ `for (col = lo; col < hi; ++col) row[col] = fill` loops). -/
def set_cells_from (fill : TermChar) (lo hi i : Nat) : List TermChar → List TermChar
  | [] => []
  | c :: rest => (if lo ≤ i ∧ i < hi then fill else c) :: set_cells_from fill lo hi (i + 1) rest

/-- `set_cells fill lo hi row` blanks columns `[lo, hi)` of one row. -/
def set_cells (fill : TermChar) (lo hi : Nat) (row : List TermChar) : List TermChar :=
  set_cells_from fill lo hi 0 row

/-- Apply a row-index-dependent transformation to each row, starting the
count at `i` (helper for `erase_in_display`). -/
def map_rows_from (f : Nat → List TermChar → List TermChar) (i : Nat) :
    List (List TermChar) → List (List TermChar)
  | [] => []
  | r :: rest => f i r :: map_rows_from f (i + 1) rest

/-- The fill cell of a scrolled-in row (spec §4.1 and §9.4): a blank cell
carrying the current background colour. -/
def scroll_fill (a : CharAttr) : TermChar :=
  blank_char { default_attr with bg_r := a.bg_r, bg_g := a.bg_g, bg_b := a.bg_b }

/-- Modelled from the spec: scroll the grid up by one line (spec §4.1
"newline"): rows 1..rows-1 move to 0..rows-2, the last row is filled with
blank cells carrying the current background colour; all rows dirty. -/
def TerminalLogic.scroll_up (st : TerminalLogic) : TerminalLogic × List Nat :=
  ({ st with text_buffer :=
      st.text_buffer.drop 1 ++ [List.replicate st.term_cols (scroll_fill st.current_attr)] },
   List.range st.term_rows)

/-- Modelled from the spec: newline (spec §4.1): cursor to (row+1, col);
at the bottom row the grid scrolls and the row stays at rows−1. -/
def TerminalLogic.newline (st : TerminalLogic) : TerminalLogic × List Nat :=
  if st.cursor.row + 1 ≥ st.term_rows then
    let (st', d) := st.scroll_up
    ({ st' with cursor := ⟨st.term_rows - 1, st.cursor.col⟩ }, d)
  else
    ({ st with cursor := ⟨st.cursor.row + 1, st.cursor.col⟩ }, [])

/-- Modelled from the spec: put_char (spec §4.1, wrap pinned by §9.2):
if the column has reached `cols`, first wrap to column 0 of the next row
(scrolling if needed); then write (cp, current_attr) at the cursor and
advance one column. -/
def TerminalLogic.put_char (cp : Nat) (st : TerminalLogic) : TerminalLogic × List Nat :=
  let (st1, d1) :=
    if st.cursor.col ≥ st.term_cols then
      TerminalLogic.newline { st with cursor := ⟨st.cursor.row, 0⟩ }
    else (st, [])
  let r := st1.cursor.row
  let c := st1.cursor.col
  ({ st1 with
      text_buffer := st1.text_buffer.modify
        (fun row => row.set c ⟨cp, st1.current_attr⟩) r
      cursor := ⟨r, c + 1⟩ },
   d1 ++ [r])

/-- Modelled from the spec: erase_in_line (spec §4.1): mode 0 blanks
[col, cols); mode 1 blanks [0, col]; mode 2 blanks the whole row; fill
uses `current_attr`.  Row dirty. -/
def TerminalLogic.erase_in_line (mode : Nat) (st : TerminalLogic) : TerminalLogic × List Nat :=
  let fill := blank_char st.current_attr
  let f : List TermChar → List TermChar :=
    if mode = 0 then set_cells fill st.cursor.col st.term_cols
    else if mode = 1 then set_cells fill 0 (st.cursor.col + 1)
    else if mode = 2 then set_cells fill 0 st.term_cols
    else id
  ({ st with text_buffer := st.text_buffer.modify f st.cursor.row }, [st.cursor.row])

/-- Modelled from the spec: erase_in_display (spec §4.1): mode 0 blanks
from the cursor to the end, mode 1 from the start through the cursor,
mode 2 the whole grid.  On mode 2 the cursor moves home to (0,0): pinned
by `TerminalLogicTest.ClearScreenEsc2J` in `src/unit_tests.cpp`, which
sets the cursor to (5,10) and asserts (0,0) after `ESC [2J` (the spec
itself notes in §9.3 that the xterm-style cursor-home variant is what the
source's test exhibits). -/
def TerminalLogic.erase_in_display (mode : Nat) (st : TerminalLogic) : TerminalLogic × List Nat :=
  let fill := blank_char st.current_attr
  let r := st.cursor.row
  let c := st.cursor.col
  if mode = 0 then
    let buf := map_rows_from
      (fun i row =>
        if i < r then row
        else if i = r then set_cells fill c st.term_cols row
        else set_cells fill 0 st.term_cols row) 0 st.text_buffer
    ({ st with text_buffer := buf }, (List.range st.term_rows).filter (fun i => r ≤ i))
  else if mode = 1 then
    let buf := map_rows_from
      (fun i row =>
        if i < r then set_cells fill 0 st.term_cols row
        else if i = r then set_cells fill 0 (c + 1) row
        else row) 0 st.text_buffer
    ({ st with text_buffer := buf }, (List.range st.term_rows).filter (fun i => i ≤ r))
  else if mode = 2 then
    let buf := List.replicate st.term_rows (List.replicate st.term_cols fill)
    ({ st with text_buffer := buf, cursor := ⟨0, 0⟩ }, List.range st.term_rows)
  else (st, [])

/-- Modelled from the spec: full reset on ESC `c` (spec §4.2 and §9.1):
grid blanked, cursor home, default attributes, decoder fully cleared;
all rows dirty.  Pinned by `TerminalLogicTest.EscCResetsStateAndClearsScreen`. -/
def TerminalLogic.reset (st : TerminalLogic) : TerminalLogic × List Nat :=
  (TerminalLogic.init st.term_cols st.term_rows, List.range st.term_rows)

/-- Parse the CSI parameter buffer (spec §4.2): ASCII digit runs separated
by `;`, missing or empty entries default to 0; non-digit bytes (such as a
leading `?`) are skipped. -/
def parse_params_aux (cur : Nat) : List Nat → List Nat
  | [] => [cur]
  | b :: rest =>
    if b = 0x3B then cur :: parse_params_aux 0 rest
    else if 0x30 ≤ b ∧ b ≤ 0x39 then parse_params_aux (cur * 10 + (b - 0x30)) rest
    else parse_params_aux cur rest

/-- Parameter list of a CSI sequence; an empty buffer yields `[0]`. -/
def parse_params (buf : List Nat) : List Nat := parse_params_aux 0 buf

/-- Parameter at index `i`, where a missing or zero entry means `dflt`
(spec §4.2: cursor motions and `H` treat 0 as their default). -/
def param_or (ps : List Nat) (i dflt : Nat) : Nat :=
  match ps.getD i 0 with
  | 0 => dflt
  | n => n

/-- The eight-colour palette (spec §4.2). -/
def palette (i : Nat) : Nat × Nat × Nat :=
  match i with
  | 0 => (0, 0, 0)
  | 1 => (255, 0, 0)
  | 2 => (0, 255, 0)
  | 3 => (255, 255, 0)
  | 4 => (0, 0, 255)
  | 5 => (255, 0, 255)
  | 6 => (0, 255, 255)
  | _ => (255, 255, 255)

/-- Modelled from the spec: one SGR code applied to the attribute
(spec §4.2 SGR table). -/
def apply_sgr_code (a : CharAttr) (code : Nat) : CharAttr :=
  if code = 0 then default_attr
  else if 30 ≤ code ∧ code ≤ 37 then
    let p := palette (code - 30)
    { a with fg_r := p.1, fg_g := p.2.1, fg_b := p.2.2 }
  else if 40 ≤ code ∧ code ≤ 47 then
    let p := palette (code - 40)
    { a with bg_r := p.1, bg_g := p.2.1, bg_b := p.2.2 }
  else if code = 39 then { a with fg_r := 255, fg_g := 255, fg_b := 255 }
  else if code = 49 then { a with bg_r := 0, bg_g := 0, bg_b := 0 }
  else a

/-- SGR code list applied left to right. -/
def apply_sgr (a : CharAttr) (codes : List Nat) : CharAttr :=
  codes.foldl apply_sgr_code a

/-- Modelled from the spec: move_to (spec §4.1): clamp into bounds. -/
def TerminalLogic.move_to (r c : Nat) (st : TerminalLogic) : TerminalLogic × List Nat :=
  ({ st with cursor := ⟨min r (st.term_rows - 1), min c (st.term_cols - 1)⟩ }, [])

/-- Modelled from the spec: dispatch of a completed escape sequence
(spec §4.2 CSI table; ESC `c` reset).  `seq` is the byte buffer after
ESC — `[` followed by parameters for CSI, empty for two-byte escapes —
and `fin` the final byte, matching the unit tests' direct calls
`parse_ansi_sequence("[2", 'J')` and `parse_ansi_sequence("", 'c')`. -/
def TerminalLogic.parse_ansi_sequence (seq : List Nat) (fin : Nat) (st : TerminalLogic) :
    TerminalLogic × List Nat :=
  if seq.head? = some 0x5B then
    let ps := parse_params (seq.drop 1)
    if fin = 0x41 then      -- 'A': cursor up
      ({ st with cursor := ⟨st.cursor.row - param_or ps 0 1, st.cursor.col⟩ }, [])
    else if fin = 0x42 then -- 'B': cursor down
      ({ st with cursor :=
          ⟨min (st.term_rows - 1) (st.cursor.row + param_or ps 0 1), st.cursor.col⟩ }, [])
    else if fin = 0x43 then -- 'C': cursor right
      ({ st with cursor :=
          ⟨st.cursor.row, min (st.term_cols - 1) (st.cursor.col + param_or ps 0 1)⟩ }, [])
    else if fin = 0x44 then -- 'D': cursor left
      ({ st with cursor := ⟨st.cursor.row, st.cursor.col - param_or ps 0 1⟩ }, [])
    else if fin = 0x48 ∨ fin = 0x66 then -- 'H'/'f': absolute move, 1-based
      st.move_to (param_or ps 0 1 - 1) (param_or ps 1 1 - 1)
    else if fin = 0x4A then -- 'J'
      st.erase_in_display (ps.getD 0 0)
    else if fin = 0x4B then -- 'K'
      st.erase_in_line (ps.getD 0 0)
    else if fin = 0x6D then -- 'm'
      ({ st with current_attr := apply_sgr st.current_attr ps }, [])
    else (st, [])           -- includes private modes 'h'/'l': acknowledged, no effect
  else if fin = 0x63 then   -- ESC c
    st.reset
  else (st, [])

/-- Modelled from the spec: UTF-8 lead-byte classification (spec §4.2
accumulator rules); stray continuations and invalid leads are discarded. -/
def TerminalLogic.utf8_lead (st : TerminalLogic) (b : Nat) : TerminalLogic × List Nat :=
  if 0xC0 ≤ b ∧ b < 0xE0 then
    ({ st with utf8_remaining := 1, utf8_acc := b - 0xC0 }, [])
  else if 0xE0 ≤ b ∧ b < 0xF0 then
    ({ st with utf8_remaining := 2, utf8_acc := b - 0xE0 }, [])
  else if 0xF0 ≤ b ∧ b < 0xF8 then
    ({ st with utf8_remaining := 3, utf8_acc := b - 0xF0 }, [])
  else
    ({ st with utf8_remaining := 0, utf8_acc := 0 }, [])

/-- Modelled from the spec: feed one byte ≥ 0x80 into the UTF-8
accumulator (spec §4.2): continuations extend the accumulator and the
completed code point is put_char'd; a non-continuation discards the
partial sequence and is reclassified as a lead. -/
def TerminalLogic.utf8_input (st : TerminalLogic) (b : Nat) : TerminalLogic × List Nat :=
  if st.utf8_remaining = 0 then st.utf8_lead b
  else if 0x80 ≤ b ∧ b < 0xC0 then
    if st.utf8_remaining = 1 then
      TerminalLogic.put_char (st.utf8_acc * 64 + (b - 0x80))
        { st with utf8_remaining := 0, utf8_acc := 0 }
    else
      ({ st with
          utf8_remaining := st.utf8_remaining - 1
          utf8_acc := st.utf8_acc * 64 + (b - 0x80) }, [])
  else
    TerminalLogic.utf8_lead { st with utf8_remaining := 0, utf8_acc := 0 } b

/-- Modelled from the spec: NORMAL-mode byte classification (spec §4.2):
ESC, BS, HT, LF, CR dispatch; BEL, other controls and DEL ignored;
printable ASCII put_char'd; bytes ≥ 0x80 fed to the UTF-8 accumulator. -/
def TerminalLogic.handle_normal (st : TerminalLogic) (b : Nat) : TerminalLogic × List Nat :=
  if b = 0x1B then ({ st with esc_state := .ESC, escape_buffer := [] }, [])
  else if b = 0x08 then ({ st with cursor := ⟨st.cursor.row, st.cursor.col - 1⟩ }, [])
  else if b = 0x09 then
    ({ st with cursor :=
        ⟨st.cursor.row, min (st.term_cols - 1) ((st.cursor.col / 8 + 1) * 8)⟩ }, [])
  else if b = 0x0A then st.newline
  else if b = 0x0D then ({ st with cursor := ⟨st.cursor.row, 0⟩ }, [])
  else if b < 0x20 ∨ b = 0x7F then (st, [])
  else if b < 0x80 then st.put_char b
  else st.utf8_input b

/-- Modelled from the spec: one byte of the decoder state machine
(spec §4.2).  ESC mode: `[` opens CSI, anything else is dispatched as a
two-byte escape (reset on `c`, silently consumed otherwise).  CSI mode:
digits, `;` and `?` accumulate; a byte in 0x40..0x7E is final and
dispatches; other bytes are ignored. -/
def TerminalLogic.handle_byte (st : TerminalLogic) (b : Nat) : TerminalLogic × List Nat :=
  match st.esc_state with
  | .NORMAL => st.handle_normal b
  | .ESC =>
    if b = 0x5B then ({ st with esc_state := .CSI, escape_buffer := [0x5B] }, [])
    else
      ({ (TerminalLogic.parse_ansi_sequence [] b st).1 with esc_state := .NORMAL },
       (TerminalLogic.parse_ansi_sequence [] b st).2)
  | .CSI =>
    if 0x40 ≤ b ∧ b ≤ 0x7E then
      ({ (TerminalLogic.parse_ansi_sequence st.escape_buffer b st).1 with
          esc_state := .NORMAL
          escape_buffer := [] },
       (TerminalLogic.parse_ansi_sequence st.escape_buffer b st).2)
    else if (0x30 ≤ b ∧ b ≤ 0x39) ∨ b = 0x3B ∨ b = 0x3F then
      ({ st with escape_buffer := st.escape_buffer ++ [b] }, [])
    else (st, [])

/-- One step of `process_input`: feed a byte, appending its dirty rows. -/
def process_step (acc : TerminalLogic × List Nat) (b : Nat) : TerminalLogic × List Nat :=
  let r := TerminalLogic.handle_byte acc.1 b
  (r.1, acc.2 ++ r.2)

/-- Modelled from the spec: `process_input` (spec §4.1): consume a byte
slice left to right; returns the final state and the concatenated dirty
rows reported by the primitive mutations. -/
def TerminalLogic.process_input (st : TerminalLogic) (bytes : List Nat) :
    TerminalLogic × List Nat :=
  bytes.foldl process_step (st, [])

/-- Logical key codes (spec §4.3; `KeyCode` in `terminal_logic.h` as used
by `src/system_interface.cpp` and the unit tests). -/
inductive KeyCode where
  | CHARACTER | ENTER | BACKSPACE | TAB | ESCAPE
  | UP | DOWN | LEFT | RIGHT | HOME | END | INSERT | DELETE | PAGEUP | PAGEDOWN
  | F1 | F2 | F3 | F4 | F5 | F6 | F7 | F8 | F9 | F10 | F11 | F12
  deriving DecidableEq, Repr

/-- Logical key event (spec §4.3): code, code point, modifier flags.
Field names follow the source (`key.character`, `key.mod_shift`,
`key.mod_ctrl`); the test constructor `KeyInput(ch, shift, ctrl)` builds
a CHARACTER event. -/
structure KeyInput where
  code : KeyCode
  character : Nat
  mod_shift : Bool := false
  mod_ctrl : Bool := false
  deriving DecidableEq, Repr

/-- The tests' three-argument constructor `KeyInput(ch, shift, ctrl)`. -/
def KeyInput.ofChar (ch : Nat) (shift ctrl : Bool) : KeyInput :=
  { code := .CHARACTER, character := ch, mod_shift := shift, mod_ctrl := ctrl }

/-- Standard UTF-8 encoding of a code point (spec §4.3: CHARACTER with no
modifiers encodes to the UTF-8 bytes of the code point). -/
def utf8_encode (cp : Nat) : List Nat :=
  if cp < 0x80 then [cp]
  else if cp < 0x800 then [0xC0 + cp / 64, 0x80 + cp % 64]
  else if cp < 0x10000 then [0xE0 + cp / 4096, 0x80 + cp / 64 % 64, 0x80 + cp % 64]
  else [0xF0 + cp / 262144, 0x80 + cp / 4096 % 64, 0x80 + cp / 64 % 64, 0x80 + cp % 64]

/-- Modelled from the spec and pinned by `TerminalLogicTest.ShiftModifier`
in `src/unit_tests.cpp`: the encoder itself applies shift translation —
`process_key(KeyInput('a', shift)) == "A"` and
`process_key(KeyInput('1', shift)) == "!"`.  Letters are uppercased;
digits map to the US-keyboard shifted symbols; other code points are
passed through. -/
def shift_translate (cp : Nat) : Nat :=
  if 0x61 ≤ cp ∧ cp ≤ 0x7A then cp - 0x20
  else if cp = 0x31 then 0x21      -- '1' → '!'
  else if cp = 0x32 then 0x40      -- '2' → '@'
  else if cp = 0x33 then 0x23      -- '3' → '#'
  else if cp = 0x34 then 0x24      -- '4' → '$'
  else if cp = 0x35 then 0x25      -- '5' → '%'
  else if cp = 0x36 then 0x5E      -- '6' → '^'
  else if cp = 0x37 then 0x26      -- '7' → '&'
  else if cp = 0x38 then 0x2A      -- '8' → '*'
  else if cp = 0x39 then 0x28      -- '9' → '('
  else if cp = 0x30 then 0x29      -- '0' → ')'
  else cp

/-- Uppercase an ASCII letter, identity elsewhere (for the Ctrl mapping). -/
def ascii_upper (cp : Nat) : Nat :=
  if 0x61 ≤ cp ∧ cp ≤ 0x7A then cp - 0x20 else cp

/-- Modelled from the spec: `process_key` (spec §4.3), the key-to-byte
encoder.  Ctrl with a code point in `@`..`_` or `a`..`z` yields the
single byte (uppercase − 0x40); with shift the translated code point is
encoded; otherwise the UTF-8 bytes of the code point.  Special keys use
the xterm sequences.  Pinned by `TerminalLogicTest.ShiftModifier` and
`TerminalLogicTest.ControlModifier`. -/
def TerminalLogic.process_key (key : KeyInput) : List Nat :=
  match key.code with
  | .CHARACTER =>
    if key.mod_ctrl ∧
        ((0x40 ≤ key.character ∧ key.character ≤ 0x5F) ∨
         (0x61 ≤ key.character ∧ key.character ≤ 0x7A)) then
      [ascii_upper key.character - 0x40]
    else if key.mod_shift then utf8_encode (shift_translate key.character)
    else utf8_encode key.character
  | .ENTER => [0x0D]
  | .BACKSPACE => [0x7F]
  | .TAB => [0x09]
  | .ESCAPE => [0x1B]
  | .UP => [0x1B, 0x5B, 0x41]
  | .DOWN => [0x1B, 0x5B, 0x42]
  | .RIGHT => [0x1B, 0x5B, 0x43]
  | .LEFT => [0x1B, 0x5B, 0x44]
  | .HOME => [0x1B, 0x5B, 0x48]
  | .END => [0x1B, 0x5B, 0x46]
  | .INSERT => [0x1B, 0x5B, 0x32, 0x7E]
  | .DELETE => [0x1B, 0x5B, 0x33, 0x7E]
  | .PAGEUP => [0x1B, 0x5B, 0x35, 0x7E]
  | .PAGEDOWN => [0x1B, 0x5B, 0x36, 0x7E]
  | .F1 => [0x1B, 0x4F, 0x50]
  | .F2 => [0x1B, 0x4F, 0x51]
  | .F3 => [0x1B, 0x4F, 0x52]
  | .F4 => [0x1B, 0x4F, 0x53]
  | .F5 => [0x1B, 0x5B, 0x31, 0x35, 0x7E]
  | .F6 => [0x1B, 0x5B, 0x31, 0x37, 0x7E]
  | .F7 => [0x1B, 0x5B, 0x31, 0x38, 0x7E]
  | .F8 => [0x1B, 0x5B, 0x31, 0x39, 0x7E]
  | .F9 => [0x1B, 0x5B, 0x32, 0x30, 0x7E]
  | .F10 => [0x1B, 0x5B, 0x32, 0x31, 0x7E]
  | .F11 => [0x1B, 0x5B, 0x32, 0x33, 0x7E]
  | .F12 => [0x1B, 0x5B, 0x32, 0x34, 0x7E]

/-!  The interface layer, embedded from `src/system_interface.cpp`
(present in the repository under `src/`). -/

/-- The `switch (ch)` of `SystemInterface::process_keyboard_input`
(`src/system_interface.cpp` lines 182–267): ncurses key codes are the
usual numeric values (`KEY_UP` = 259, `KEY_BACKSPACE` = 263,
`KEY_F(n)` = 264+n, `KEY_DC` = 330, `KEY_IC` = 331, `KEY_NPAGE` = 338,
`KEY_PPAGE` = 339, `KEY_END` = 360).  The default branch classifies
`ch ≥ 32` as CHARACTER and sets the shift flag for `A`–`Z`. -/
def keyboard_key (ch : Nat) : KeyInput :=
  if ch = 0x0A ∨ ch = 0x0D then { code := .ENTER, character := ch }
  else if ch = 127 ∨ ch = 263 then { code := .BACKSPACE, character := ch }
  else if ch = 0x09 then { code := .TAB, character := ch }
  else if ch = 27 then { code := .ESCAPE, character := ch }
  else if ch = 259 then { code := .UP, character := ch }
  else if ch = 258 then { code := .DOWN, character := ch }
  else if ch = 261 then { code := .RIGHT, character := ch }
  else if ch = 260 then { code := .LEFT, character := ch }
  else if ch = 262 then { code := .HOME, character := ch }
  else if ch = 360 then { code := .END, character := ch }
  else if ch = 331 then { code := .INSERT, character := ch }
  else if ch = 330 then { code := .DELETE, character := ch }
  else if ch = 339 then { code := .PAGEUP, character := ch }
  else if ch = 338 then { code := .PAGEDOWN, character := ch }
  else if ch = 265 then { code := .F1, character := ch }
  else if ch = 266 then { code := .F2, character := ch }
  else if ch = 267 then { code := .F3, character := ch }
  else if ch = 268 then { code := .F4, character := ch }
  else if ch = 269 then { code := .F5, character := ch }
  else if ch = 270 then { code := .F6, character := ch }
  else if ch = 271 then { code := .F7, character := ch }
  else if ch = 272 then { code := .F8, character := ch }
  else if ch = 273 then { code := .F9, character := ch }
  else if ch = 274 then { code := .F10, character := ch }
  else if ch = 275 then { code := .F11, character := ch }
  else if ch = 276 then { code := .F12, character := ch }
  else { code := .CHARACTER, character := ch,
         mod_shift := decide (0x41 ≤ ch ∧ ch ≤ 0x5A) }

/-- `SystemInterface::process_keyboard_input` (`src/system_interface.cpp`
lines 163–274), as the bytes it writes to the PTY for one keyboard
character `ch`: a character ≤ 0x1F is written verbatim as a single byte
before any key classification; otherwise the key is classified by the
switch and encoded by `process_key`. -/
def process_keyboard_input (ch : Nat) : List Nat :=
  if ch ≤ 0x1F then [ch]
  else TerminalLogic.process_key (keyboard_key ch)

/-- The dirty-row marking loop of `SystemInterface::process_pty_input`
(`src/system_interface.cpp` lines 152–158, identically
`CursesTerminal::process_pty_input` in `src/src/curses_terminal.cpp`):
each returned row index is applied to the `dirty_lines` vector only when
`row >= 0 && (size_t)row < dirty_lines.size()`.  Row indices are `Int`,
as in the C++ (`std::vector<int>`). -/
def mark_dirty_rows (dirty_lines : List Bool) (rows : List Int) : List Bool :=
  rows.foldl (fun dl row =>
    if 0 ≤ row ∧ row.toNat < dl.length then dl.set row.toNat true else dl) dirty_lines

/-! ## Basic unfolding lemmas for `process_input` -/

theorem process_input_acc (B : List Nat) : ∀ (st : TerminalLogic) (d : List Nat),
    B.foldl process_step (st, d) =
      ((st.process_input B).1, d ++ (st.process_input B).2) := by
  induction B with
  | nil =>
    intro st d
    simp [TerminalLogic.process_input]
  | cons b bs ih =>
    intro st d
    have hstep : process_step (st, d) b =
        ((st.handle_byte b).1, d ++ (st.handle_byte b).2) := rfl
    have hstep0 : process_step (st, []) b =
        ((st.handle_byte b).1, [] ++ (st.handle_byte b).2) := rfl
    calc (b :: bs).foldl process_step (st, d)
        = bs.foldl process_step ((st.handle_byte b).1, d ++ (st.handle_byte b).2) := by
          rw [List.foldl_cons, hstep]
      _ = (((st.handle_byte b).1.process_input bs).1,
            (d ++ (st.handle_byte b).2) ++ ((st.handle_byte b).1.process_input bs).2) :=
          ih _ _
      _ = ((st.process_input (b :: bs)).1, d ++ (st.process_input (b :: bs)).2) := by
          show _ = ((bs.foldl process_step (process_step (st, []) b)).1,
            d ++ (bs.foldl process_step (process_step (st, []) b)).2)
          rw [hstep0, List.nil_append, ih _ _]
          simp [List.append_assoc]

theorem process_input_cons (st : TerminalLogic) (b : Nat) (bs : List Nat) :
    st.process_input (b :: bs) =
      (((st.handle_byte b).1.process_input bs).1,
       (st.handle_byte b).2 ++ ((st.handle_byte b).1.process_input bs).2) := by
  show (b :: bs).foldl process_step (st, []) = _
  rw [List.foldl_cons]
  have hstep0 : process_step (st, []) b =
      ((st.handle_byte b).1, [] ++ (st.handle_byte b).2) := rfl
  rw [hstep0, List.nil_append, process_input_acc]

theorem process_input_nil (st : TerminalLogic) : st.process_input [] = (st, []) := rfl

/-- C1: Chunk independence of the byte decoder: for every byte sequence
and every split `B = B₁ ++ B₂`, processing `B₁` and then `B₂` yields
exactly the same final state — cells, cursor, current attribute, decoder
mode, UTF-8 accumulator and escape-parameter buffer — as processing `B`
in one call. -/
theorem process_input_chunk_independence (st : TerminalLogic) (B1 B2 : List Nat) :
    ((st.process_input B1).1.process_input B2).1 = (st.process_input (B1 ++ B2)).1 := by
  show _ = ((B1 ++ B2).foldl process_step (st, [])).1
  rw [List.foldl_append, process_input_acc B1 st [], process_input_acc B2]

/-! ## Byte-classification reduction lemmas -/

theorem handle_byte_normal (st : TerminalLogic) (b : Nat) (h : st.esc_state = .NORMAL) :
    st.handle_byte b = st.handle_normal b := by
  unfold TerminalLogic.handle_byte
  rw [h]

theorem handle_normal_high (b : Nat) (h : 0x80 ≤ b) :
    ∀ st : TerminalLogic, st.handle_normal b = st.utf8_input b := by
  intro st
  unfold TerminalLogic.handle_normal
  rw [if_neg (by omega), if_neg (by omega), if_neg (by omega), if_neg (by omega),
    if_neg (by omega), if_neg (by omega), if_neg (by omega)]

theorem handle_normal_print (b : Nat) (h1 : 0x20 ≤ b) (h2 : b ≤ 0x7E) :
    ∀ st : TerminalLogic, st.handle_normal b = st.put_char b := by
  intro st
  unfold TerminalLogic.handle_normal
  rw [if_neg (by omega), if_neg (by omega), if_neg (by omega), if_neg (by omega),
    if_neg (by omega), if_neg (by omega), if_pos (by omega)]

/-! ## C5: the reset law (ESC `c`) -/

/-- C5 (counterexample): the reset law does not hold from every reachable
state.  The state reached from a fresh 3×2 grid by processing `"A\x1B"`
has the decoder in ESC mode; feeding `"\x1Bc"` there consumes the second
ESC as an unrecognized two-byte escape (returning to NORMAL) and then
put_chars the letter `c` — the result is not the freshly constructed
state. -/
theorem esc_c_not_reset_from_esc_mode :
    (((TerminalLogic.init 3 2).process_input [0x41, 0x1B]).1.process_input
        [0x1B, 0x63]).1 ≠ TerminalLogic.init 3 2 := by decide

/-- C5 (amended): for every state whose decoder is in NORMAL mode —
in particular every reachable state not in the middle of an escape
sequence — processing ESC `c` yields exactly the freshly constructed
state of the same dimensions (cells blank, cursor (0,0), default
attribute, NORMAL mode, empty UTF-8 accumulator and parameter buffer),
and all rows are reported dirty. -/
theorem esc_c_reset_law (st : TerminalLogic) (h : st.esc_state = .NORMAL) :
    st.process_input [0x1B, 0x63] =
      (TerminalLogic.init st.term_cols st.term_rows, List.range st.term_rows) := by
  rw [process_input_cons, handle_byte_normal st 0x1B h]
  have h1 : st.handle_normal 0x1B =
      ({ st with esc_state := .ESC, escape_buffer := [] }, []) := rfl
  rw [h1, process_input_cons, process_input_nil]
  have h2 : ({ st with esc_state := .ESC, escape_buffer := [] } : TerminalLogic).handle_byte 0x63
      = (TerminalLogic.init st.term_cols st.term_rows, List.range st.term_rows) := rfl
  rw [h2]
  simp

/-- C5 (witness): the amended reset law at a concrete dirty state. -/
theorem esc_c_reset_law_witness :
    ({ TerminalLogic.init 3 2 with
        cursor := ⟨1, 2⟩
        current_attr := ⟨255, 0, 0, 0, 0, 0⟩ } : TerminalLogic).process_input [0x1B, 0x63] =
      (TerminalLogic.init 3 2, List.range 2) :=
  esc_c_reset_law _ rfl

/-! ## C2: ESC [2J -/

/-- C2 (counterexample): `ESC [2J` does not leave the cursor unchanged:
from a 4×3 grid with the cursor at (2,3) it moves the cursor to (0,0),
exactly as `TerminalLogicTest.ClearScreenEsc2J` asserts. -/
theorem csi_2J_moves_cursor :
    (({ TerminalLogic.init 4 3 with cursor := ⟨2, 3⟩ } : TerminalLogic).process_input
        [0x1B, 0x5B, 0x32, 0x4A]).1.cursor = (⟨0, 0⟩ : Cursor) ∧
    (⟨0, 0⟩ : Cursor) ≠ (⟨2, 3⟩ : Cursor) := by decide

/-- C2 (amended): for every grid state whose decoder is in NORMAL mode,
processing `ESC [2J` blanks every cell of the grid (fill carries the
current attribute) and moves the cursor home to (0,0) — the xterm
behaviour pinned by `TerminalLogicTest.ClearScreenEsc2J` — rather than
leaving the cursor position unchanged. -/
theorem csi_2J_blanks_grid_and_homes_cursor (st : TerminalLogic)
    (h : st.esc_state = .NORMAL) :
    (st.process_input [0x1B, 0x5B, 0x32, 0x4A]).1 =
      { st with
          text_buffer := List.replicate st.term_rows
            (List.replicate st.term_cols (blank_char st.current_attr))
          cursor := ⟨0, 0⟩
          esc_state := .NORMAL
          escape_buffer := [] } := by
  rw [process_input_cons, handle_byte_normal st 0x1B h]
  have h1 : st.handle_normal 0x1B =
      ({ st with esc_state := .ESC, escape_buffer := [] }, []) := rfl
  rw [h1]
  rfl

/-- A concrete 2×2 state with the cursor away from home. -/
def mid_state_2x2 : TerminalLogic := { TerminalLogic.init 2 2 with cursor := ⟨1, 1⟩ }

/-- C2 (witness): the amended `[2J` law at a concrete state. -/
theorem csi_2J_blanks_grid_witness :
    (mid_state_2x2.process_input [0x1B, 0x5B, 0x32, 0x4A]).1 =
      { mid_state_2x2 with
          text_buffer := List.replicate 2 (List.replicate 2 (blank_char default_attr))
          cursor := ⟨0, 0⟩
          esc_state := .NORMAL
          escape_buffer := [] } :=
  csi_2J_blanks_grid_and_homes_cursor mid_state_2x2 rfl

/-! ## C4: scroll on newline at the bottom row -/

/-- C4: with the decoder in NORMAL mode, the cursor on the bottom row and
a well-formed buffer, consuming LF (0x0A) scrolls the grid up one line:
every old row r (1 ≤ r < rows) becomes new row r−1, the last row is
filled with blank cells (current background), the cursor stays at
(rows−1, col), and all rows are reported dirty. -/
theorem lf_at_bottom_scrolls (st : TerminalLogic)
    (hmode : st.esc_state = .NORMAL)
    (hrow : st.cursor.row = st.term_rows - 1)
    (hrows : 0 < st.term_rows)
    (hlen : st.text_buffer.length = st.term_rows) :
    (∀ r, 1 ≤ r → r < st.term_rows →
      ((st.process_input [0x0A]).1.text_buffer)[r - 1]? = st.text_buffer[r]?) ∧
    ((st.process_input [0x0A]).1.text_buffer)[st.term_rows - 1]? =
      some (List.replicate st.term_cols (scroll_fill st.current_attr)) ∧
    (st.process_input [0x0A]).1.cursor = ⟨st.term_rows - 1, st.cursor.col⟩ ∧
    (st.process_input [0x0A]).2 = List.range st.term_rows := by
  have hh : st.process_input [0x0A] =
      ({ st with
          text_buffer := st.text_buffer.drop 1 ++
            [List.replicate st.term_cols (scroll_fill st.current_attr)]
          cursor := ⟨st.term_rows - 1, st.cursor.col⟩ },
       List.range st.term_rows) := by
    rw [process_input_cons, process_input_nil, handle_byte_normal st 0x0A hmode]
    have h1 : st.handle_normal 0x0A = st.newline := rfl
    rw [h1]
    unfold TerminalLogic.newline TerminalLogic.scroll_up
    rw [if_pos (by omega)]
    simp
  rw [hh]
  refine ⟨?_, ?_, rfl, rfl⟩
  · intro r h1 h2
    show (st.text_buffer.drop 1 ++ [_])[r - 1]? = _
    rw [List.getElem?_append, if_pos (by rw [List.length_drop]; omega),
      List.getElem?_drop]
    congr 1
    omega
  · show (st.text_buffer.drop 1 ++ [_])[st.term_rows - 1]? = _
    rw [List.getElem?_append, if_neg (by rw [List.length_drop]; omega)]
    have hz : st.term_rows - 1 - (st.text_buffer.drop 1).length = 0 := by
      rw [List.length_drop]; omega
    rw [hz]
    rfl

/-- A concrete 2×2 state: row 0 holds `a`s, row 1 holds `b`s, cursor at
the bottom row. -/
def c4_state : TerminalLogic :=
  { TerminalLogic.init 2 2 with
      cursor := ⟨1, 1⟩
      text_buffer := [[⟨97, default_attr⟩, ⟨97, default_attr⟩],
                      [⟨98, default_attr⟩, ⟨98, default_attr⟩]] }

/-- C4 (witness): the scroll law evaluated on the concrete 2×2 state. -/
theorem lf_at_bottom_scrolls_witness :
    ((c4_state.process_input [0x0A]).1.text_buffer)[0]? = c4_state.text_buffer[1]? ∧
    ((c4_state.process_input [0x0A]).1.text_buffer)[1]? =
      some (List.replicate 2 (scroll_fill default_attr)) ∧
    (c4_state.process_input [0x0A]).1.cursor = ⟨1, 1⟩ ∧
    (c4_state.process_input [0x0A]).2 = List.range 2 := by
  have h := lf_at_bottom_scrolls c4_state rfl rfl (by decide) (by decide)
  exact ⟨h.1 1 (by decide) (by decide), h.2.1, h.2.2.1, h.2.2.2⟩

/-! ## C6: UTF-8 decoding -/

/-- A UTF-8 continuation byte `10xxxxxx`. -/
def utf8_cont (b : Nat) : Prop := 0x80 ≤ b ∧ b < 0xC0

instance (b : Nat) : Decidable (utf8_cont b) := by
  unfold utf8_cont
  infer_instance

/-- `utf8_seq_decodes bs cp`: `bs` is a well-formed 1–4 byte UTF-8
sequence decoding to the code point `cp` (spec §4.2 accumulator rules).
The 1-byte case is restricted to the printable range 0x20..0x7E, since
ASCII control bytes are handled by the control dispatcher rather than
put_char. -/
def utf8_seq_decodes : List Nat → Nat → Prop
  | [b], cp => 0x20 ≤ b ∧ b ≤ 0x7E ∧ cp = b
  | [b1, b2], cp => 0xC0 ≤ b1 ∧ b1 < 0xE0 ∧ utf8_cont b2 ∧
      cp = (b1 - 0xC0) * 64 + (b2 - 0x80)
  | [b1, b2, b3], cp => 0xE0 ≤ b1 ∧ b1 < 0xF0 ∧ utf8_cont b2 ∧ utf8_cont b3 ∧
      cp = ((b1 - 0xE0) * 64 + (b2 - 0x80)) * 64 + (b3 - 0x80)
  | [b1, b2, b3, b4], cp => 0xF0 ≤ b1 ∧ b1 < 0xF8 ∧ utf8_cont b2 ∧ utf8_cont b3 ∧
      utf8_cont b4 ∧
      cp = (((b1 - 0xF0) * 64 + (b2 - 0x80)) * 64 + (b3 - 0x80)) * 64 + (b4 - 0x80)
  | _, _ => False

instance utf8_seq_decodes_dec : (bs : List Nat) → (cp : Nat) →
    Decidable (utf8_seq_decodes bs cp)
  | [], _ => by unfold utf8_seq_decodes; infer_instance
  | [_], _ => by unfold utf8_seq_decodes; infer_instance
  | [_, _], _ => by unfold utf8_seq_decodes; infer_instance
  | [_, _, _], _ => by unfold utf8_seq_decodes; infer_instance
  | [_, _, _, _], _ => by unfold utf8_seq_decodes; infer_instance
  | _ :: _ :: _ :: _ :: _ :: _, _ => by unfold utf8_seq_decodes; infer_instance

theorem put_char_no_wrap (cp : Nat) (st : TerminalLogic)
    (h : st.cursor.col < st.term_cols) :
    st.put_char cp =
      ({ st with
          text_buffer := st.text_buffer.modify
            (fun row => row.set st.cursor.col ⟨cp, st.current_attr⟩) st.cursor.row
          cursor := ⟨st.cursor.row, st.cursor.col + 1⟩ },
       [st.cursor.row]) := by
  unfold TerminalLogic.put_char
  rw [if_neg (by omega)]
  rfl

theorem utf8_lead_two (st : TerminalLogic) (b : Nat) (h1 : 0xC0 ≤ b) (h2 : b < 0xE0) :
    st.utf8_lead b = ({ st with utf8_remaining := 1, utf8_acc := b - 0xC0 }, []) := by
  unfold TerminalLogic.utf8_lead
  rw [if_pos ⟨h1, h2⟩]

theorem utf8_lead_three (st : TerminalLogic) (b : Nat) (h1 : 0xE0 ≤ b) (h2 : b < 0xF0) :
    st.utf8_lead b = ({ st with utf8_remaining := 2, utf8_acc := b - 0xE0 }, []) := by
  unfold TerminalLogic.utf8_lead
  rw [if_neg (by omega), if_pos ⟨h1, h2⟩]

theorem utf8_lead_four (st : TerminalLogic) (b : Nat) (h1 : 0xF0 ≤ b) (h2 : b < 0xF8) :
    st.utf8_lead b = ({ st with utf8_remaining := 3, utf8_acc := b - 0xF0 }, []) := by
  unfold TerminalLogic.utf8_lead
  rw [if_neg (by omega), if_neg (by omega), if_pos ⟨h1, h2⟩]

theorem utf8_input_idle (st : TerminalLogic) (b : Nat) (h : st.utf8_remaining = 0) :
    st.utf8_input b = st.utf8_lead b := by
  unfold TerminalLogic.utf8_input
  rw [if_pos h]

theorem utf8_input_more (st : TerminalLogic) (b : Nat) (h0 : 2 ≤ st.utf8_remaining)
    (hc : 0x80 ≤ b) (hc2 : b < 0xC0) :
    st.utf8_input b =
      ({ st with
          utf8_remaining := st.utf8_remaining - 1
          utf8_acc := st.utf8_acc * 64 + (b - 0x80) }, []) := by
  unfold TerminalLogic.utf8_input
  rw [if_neg (by omega), if_pos ⟨hc, hc2⟩, if_neg (by omega)]

theorem utf8_input_last (st : TerminalLogic) (b : Nat) (h0 : st.utf8_remaining = 1)
    (hc : 0x80 ≤ b) (hc2 : b < 0xC0) :
    st.utf8_input b =
      TerminalLogic.put_char (st.utf8_acc * 64 + (b - 0x80))
        { st with utf8_remaining := 0, utf8_acc := 0 } := by
  unfold TerminalLogic.utf8_input
  rw [if_neg (by omega), if_pos ⟨hc, hc2⟩, if_pos h0]

/-- C6: feeding one well-formed UTF-8 sequence (1–4 bytes, printable) to
`process_input` from an idle NORMAL state whose cursor column is inside
the grid writes exactly one cell — the decoded code point with the
current attribute at the cursor — advances the cursor one column, and
reports exactly the cursor row dirty.  In particular `D0 AF` yields
U+042F, `E2 82 AC` yields U+20AC, and `F0 9F 98 80` yields U+1F600. -/
theorem utf8_seq_writes_single_cell (st : TerminalLogic) (bs : List Nat) (cp : Nat)
    (hmode : st.esc_state = .NORMAL) (hrem : st.utf8_remaining = 0)
    (hacc : st.utf8_acc = 0) (hcol : st.cursor.col < st.term_cols)
    (hdec : utf8_seq_decodes bs cp) :
    st.process_input bs =
      ({ st with
          text_buffer := st.text_buffer.modify
            (fun row => row.set st.cursor.col ⟨cp, st.current_attr⟩) st.cursor.row
          cursor := ⟨st.cursor.row, st.cursor.col + 1⟩ },
       [st.cursor.row]) := by
  obtain ⟨cols, rows, buf, cur, attr, esc, rem, acc, ebuf⟩ := st
  obtain ⟨crow, ccol⟩ := cur
  dsimp only at hmode hrem hacc hcol
  subst hmode hrem hacc
  rcases bs with _ | ⟨b1, _ | ⟨b2, _ | ⟨b3, _ | ⟨b4, _ | ⟨b5, rest⟩⟩⟩⟩⟩
  · simp [utf8_seq_decodes] at hdec
  · simp only [utf8_seq_decodes] at hdec
    obtain ⟨h1, h2, hcp⟩ := hdec
    rw [hcp]
    rw [process_input_cons, process_input_nil, handle_byte_normal _ b1 rfl,
      handle_normal_print b1 (by omega) (by omega), put_char_no_wrap b1 _ hcol]
    rfl
  · simp only [utf8_seq_decodes] at hdec
    obtain ⟨h1, h2, ⟨h3, h4⟩, rfl⟩ := hdec
    rw [process_input_cons, handle_byte_normal _ b1 rfl,
      handle_normal_high b1 (by omega), utf8_input_idle _ _ rfl,
      utf8_lead_two _ b1 h1 h2]
    rw [process_input_cons, process_input_nil, handle_byte_normal _ b2 rfl,
      handle_normal_high b2 (by omega), utf8_input_last _ b2 rfl h3 h4,
      put_char_no_wrap _ _ hcol]
    rfl
  · simp only [utf8_seq_decodes] at hdec
    obtain ⟨h1, h2, ⟨h3, h4⟩, ⟨h5, h6⟩, rfl⟩ := hdec
    rw [process_input_cons, handle_byte_normal _ b1 rfl,
      handle_normal_high b1 (by omega), utf8_input_idle _ _ rfl,
      utf8_lead_three _ b1 h1 h2]
    rw [process_input_cons, handle_byte_normal _ b2 rfl,
      handle_normal_high b2 (by omega), utf8_input_more _ b2 (Nat.le_refl 2) h3 h4]
    rw [process_input_cons, process_input_nil, handle_byte_normal _ b3 rfl,
      handle_normal_high b3 (by omega), utf8_input_last _ b3 rfl h5 h6,
      put_char_no_wrap _ _ hcol]
    rfl
  · simp only [utf8_seq_decodes] at hdec
    obtain ⟨h1, h2, ⟨h3, h4⟩, ⟨h5, h6⟩, ⟨h7, h8⟩, rfl⟩ := hdec
    rw [process_input_cons, handle_byte_normal _ b1 rfl,
      handle_normal_high b1 (by omega), utf8_input_idle _ _ rfl,
      utf8_lead_four _ b1 h1 h2]
    rw [process_input_cons, handle_byte_normal _ b2 rfl,
      handle_normal_high b2 (by omega), utf8_input_more _ b2 (Nat.le_succ 2) h3 h4]
    rw [process_input_cons, handle_byte_normal _ b3 rfl,
      handle_normal_high b3 (by omega), utf8_input_more _ b3 (Nat.le_refl 2) h5 h6]
    rw [process_input_cons, process_input_nil, handle_byte_normal _ b4 rfl,
      handle_normal_high b4 (by omega), utf8_input_last _ b4 rfl h7 h8,
      put_char_no_wrap _ _ hcol]
    rfl
  · simp [utf8_seq_decodes] at hdec

/-- C6 (witness): the Cyrillic letter Я (`D0 AF` → U+042F) written into
a fresh 2×2 grid. -/
theorem utf8_seq_writes_single_cell_witness :
    (TerminalLogic.init 2 2).process_input [0xD0, 0xAF] =
      ({ TerminalLogic.init 2 2 with
          text_buffer := (TerminalLogic.init 2 2).text_buffer.modify
            (fun row => row.set 0 ⟨0x42F, default_attr⟩) 0
          cursor := ⟨0, 1⟩ },
       [0]) :=
  utf8_seq_writes_single_cell (TerminalLogic.init 2 2) [0xD0, 0xAF] 0x42F rfl rfl rfl
    (by decide) (by decide)

/-! ## C7: cursor bounds -/

theorem newline_ok (st : TerminalLogic)
    (hc : 0 < st.term_cols) (hr : 0 < st.term_rows)
    (h1 : st.cursor.row < st.term_rows) (h2 : st.cursor.col ≤ st.term_cols) :
    (st.newline).1.term_cols = st.term_cols ∧
    (st.newline).1.term_rows = st.term_rows ∧
    (st.newline).1.cursor.row < st.term_rows ∧
    (st.newline).1.cursor.col ≤ st.term_cols := by
  obtain ⟨cols, rows, buf, ⟨crow, ccol⟩, attr, esc, rem, acc, ebuf⟩ := st
  dsimp only at *
  unfold TerminalLogic.newline TerminalLogic.scroll_up
  split_ifs <;> simp_all

theorem put_char_ok (cp : Nat) (st : TerminalLogic)
    (hc : 0 < st.term_cols) (hr : 0 < st.term_rows)
    (h1 : st.cursor.row < st.term_rows) (h2 : st.cursor.col ≤ st.term_cols) :
    (st.put_char cp).1.term_cols = st.term_cols ∧
    (st.put_char cp).1.term_rows = st.term_rows ∧
    (st.put_char cp).1.cursor.row < st.term_rows ∧
    (st.put_char cp).1.cursor.col ≤ st.term_cols := by
  obtain ⟨cols, rows, buf, ⟨crow, ccol⟩, attr, esc, rem, acc, ebuf⟩ := st
  dsimp only at *
  unfold TerminalLogic.put_char TerminalLogic.newline TerminalLogic.scroll_up
  split_ifs <;> simp_all <;> omega

theorem utf8_input_ok (st : TerminalLogic) (b : Nat)
    (hc : 0 < st.term_cols) (hr : 0 < st.term_rows)
    (h1 : st.cursor.row < st.term_rows) (h2 : st.cursor.col ≤ st.term_cols) :
    (st.utf8_input b).1.term_cols = st.term_cols ∧
    (st.utf8_input b).1.term_rows = st.term_rows ∧
    (st.utf8_input b).1.cursor.row < st.term_rows ∧
    (st.utf8_input b).1.cursor.col ≤ st.term_cols := by
  obtain ⟨cols, rows, buf, ⟨crow, ccol⟩, attr, esc, rem, acc, ebuf⟩ := st
  dsimp only at *
  unfold TerminalLogic.utf8_input TerminalLogic.utf8_lead
  split_ifs
  · exact ⟨rfl, rfl, h1, h2⟩
  · exact ⟨rfl, rfl, h1, h2⟩
  · exact ⟨rfl, rfl, h1, h2⟩
  · exact ⟨rfl, rfl, h1, h2⟩
  · exact put_char_ok _ _ hc hr h1 h2
  · exact ⟨rfl, rfl, h1, h2⟩
  · exact ⟨rfl, rfl, h1, h2⟩
  · exact ⟨rfl, rfl, h1, h2⟩
  · exact ⟨rfl, rfl, h1, h2⟩
  · exact ⟨rfl, rfl, h1, h2⟩

theorem move_to_ok (r c : Nat) (st : TerminalLogic)
    (hc : 0 < st.term_cols) (hr : 0 < st.term_rows) :
    (st.move_to r c).1.term_cols = st.term_cols ∧
    (st.move_to r c).1.term_rows = st.term_rows ∧
    (st.move_to r c).1.cursor.row < st.term_rows ∧
    (st.move_to r c).1.cursor.col ≤ st.term_cols := by
  obtain ⟨cols, rows, buf, ⟨crow, ccol⟩, attr, esc, rem, acc, ebuf⟩ := st
  dsimp only at *
  unfold TerminalLogic.move_to
  exact ⟨rfl, rfl, show min r (rows - 1) < rows by omega,
    show min c (cols - 1) ≤ cols by omega⟩

theorem erase_in_display_ok (mode : Nat) (st : TerminalLogic)
    (hc : 0 < st.term_cols) (hr : 0 < st.term_rows)
    (h1 : st.cursor.row < st.term_rows) (h2 : st.cursor.col ≤ st.term_cols) :
    (st.erase_in_display mode).1.term_cols = st.term_cols ∧
    (st.erase_in_display mode).1.term_rows = st.term_rows ∧
    (st.erase_in_display mode).1.cursor.row < st.term_rows ∧
    (st.erase_in_display mode).1.cursor.col ≤ st.term_cols := by
  obtain ⟨cols, rows, buf, ⟨crow, ccol⟩, attr, esc, rem, acc, ebuf⟩ := st
  dsimp only at *
  unfold TerminalLogic.erase_in_display
  split_ifs
  · exact ⟨rfl, rfl, h1, h2⟩
  · exact ⟨rfl, rfl, h1, h2⟩
  · exact ⟨rfl, rfl, hr, Nat.zero_le _⟩
  · exact ⟨rfl, rfl, h1, h2⟩

theorem parse_ansi_ok (seq : List Nat) (fin : Nat) (st : TerminalLogic)
    (hc : 0 < st.term_cols) (hr : 0 < st.term_rows)
    (h1 : st.cursor.row < st.term_rows) (h2 : st.cursor.col ≤ st.term_cols) :
    (TerminalLogic.parse_ansi_sequence seq fin st).1.term_cols = st.term_cols ∧
    (TerminalLogic.parse_ansi_sequence seq fin st).1.term_rows = st.term_rows ∧
    (TerminalLogic.parse_ansi_sequence seq fin st).1.cursor.row < st.term_rows ∧
    (TerminalLogic.parse_ansi_sequence seq fin st).1.cursor.col ≤ st.term_cols := by
  obtain ⟨cols, rows, buf, ⟨crow, ccol⟩, attr, esc, rem, acc, ebuf⟩ := st
  dsimp only at *
  unfold TerminalLogic.parse_ansi_sequence
  split_ifs
  · exact ⟨rfl, rfl,
      show crow - param_or (parse_params (seq.drop 1)) 0 1 < rows by omega, h2⟩
  · exact ⟨rfl, rfl,
      show min (rows - 1) (crow + param_or (parse_params (seq.drop 1)) 0 1) < rows by omega, h2⟩
  · exact ⟨rfl, rfl, h1,
      show min (cols - 1) (ccol + param_or (parse_params (seq.drop 1)) 0 1) ≤ cols by omega⟩
  · exact ⟨rfl, rfl, h1,
      show ccol - param_or (parse_params (seq.drop 1)) 0 1 ≤ cols by omega⟩
  · exact move_to_ok _ _ _ hc hr
  · exact erase_in_display_ok _ _ hc hr h1 h2
  · exact ⟨rfl, rfl, h1, h2⟩
  · exact ⟨rfl, rfl, h1, h2⟩
  · exact ⟨rfl, rfl, h1, h2⟩
  · exact ⟨rfl, rfl, hr, Nat.zero_le _⟩
  · exact ⟨rfl, rfl, h1, h2⟩

theorem handle_normal_ok (st : TerminalLogic) (b : Nat)
    (hc : 0 < st.term_cols) (hr : 0 < st.term_rows)
    (h1 : st.cursor.row < st.term_rows) (h2 : st.cursor.col ≤ st.term_cols) :
    (st.handle_normal b).1.term_cols = st.term_cols ∧
    (st.handle_normal b).1.term_rows = st.term_rows ∧
    (st.handle_normal b).1.cursor.row < st.term_rows ∧
    (st.handle_normal b).1.cursor.col ≤ st.term_cols := by
  obtain ⟨cols, rows, buf, ⟨crow, ccol⟩, attr, esc, rem, acc, ebuf⟩ := st
  dsimp only at *
  unfold TerminalLogic.handle_normal
  split_ifs
  · exact ⟨rfl, rfl, h1, h2⟩
  · exact ⟨rfl, rfl, h1, show ccol - 1 ≤ cols by omega⟩
  · exact ⟨rfl, rfl, h1, show min (cols - 1) ((ccol / 8 + 1) * 8) ≤ cols by omega⟩
  · exact newline_ok _ hc hr h1 h2
  · exact ⟨rfl, rfl, h1, Nat.zero_le _⟩
  · exact ⟨rfl, rfl, h1, h2⟩
  · exact put_char_ok _ _ hc hr h1 h2
  · exact utf8_input_ok _ _ hc hr h1 h2

theorem handle_byte_ok (st : TerminalLogic) (b : Nat)
    (hc : 0 < st.term_cols) (hr : 0 < st.term_rows)
    (h1 : st.cursor.row < st.term_rows) (h2 : st.cursor.col ≤ st.term_cols) :
    (st.handle_byte b).1.term_cols = st.term_cols ∧
    (st.handle_byte b).1.term_rows = st.term_rows ∧
    (st.handle_byte b).1.cursor.row < st.term_rows ∧
    (st.handle_byte b).1.cursor.col ≤ st.term_cols := by
  obtain ⟨cols, rows, buf, ⟨crow, ccol⟩, attr, esc, rem, acc, ebuf⟩ := st
  dsimp only at *
  cases esc
  case NORMAL => exact handle_normal_ok _ b hc hr h1 h2
  case ESC =>
    simp only [TerminalLogic.handle_byte]
    split_ifs
    · exact ⟨rfl, rfl, h1, h2⟩
    · exact parse_ansi_ok [] b _ hc hr h1 h2
  case CSI =>
    simp only [TerminalLogic.handle_byte]
    split_ifs
    · exact parse_ansi_ok ebuf b _ hc hr h1 h2
    · exact ⟨rfl, rfl, h1, h2⟩
    · exact ⟨rfl, rfl, h1, h2⟩

/-- C7: cursor bounds invariant: from any state whose cursor is in
bounds (0 ≤ row < rows, 0 ≤ col ≤ cols, positive dimensions) — in
particular any state reachable from a freshly constructed grid — after
`process_input` of an arbitrary byte sequence the cursor still satisfies
row < rows and col ≤ cols; the column may transiently equal cols, the
row never reaches rows. -/
theorem process_input_cursor_in_bounds (st : TerminalLogic) (B : List Nat)
    (hc : 0 < st.term_cols) (hr : 0 < st.term_rows)
    (h1 : st.cursor.row < st.term_rows) (h2 : st.cursor.col ≤ st.term_cols) :
    (st.process_input B).1.cursor.row < st.term_rows ∧
    (st.process_input B).1.cursor.col ≤ st.term_cols := by
  induction B generalizing st with
  | nil => exact ⟨h1, h2⟩
  | cons b bs ih =>
    obtain ⟨ec, er, hrow, hcol⟩ := handle_byte_ok st b hc hr h1 h2
    have hcons : (st.process_input (b :: bs)).1 =
        ((st.handle_byte b).1.process_input bs).1 := by
      rw [process_input_cons]
    rw [hcons]
    have hres := ih (st.handle_byte b).1 (by rw [ec]; exact hc) (by rw [er]; exact hr)
      (by rw [er]; exact hrow) (by rw [ec]; exact hcol)
    rw [er, ec] at hres
    exact hres

/-- C7 (witness): the bounds at a concrete run on a fresh 2×2 grid. -/
theorem process_input_cursor_in_bounds_witness :
    ((TerminalLogic.init 2 2).process_input [0x41, 0x42, 0x43, 0x0A, 0x0D]).1.cursor.row < 2 ∧
    ((TerminalLogic.init 2 2).process_input [0x41, 0x42, 0x43, 0x0A, 0x0D]).1.cursor.col ≤ 2 :=
  process_input_cursor_in_bounds (TerminalLogic.init 2 2) [0x41, 0x42, 0x43, 0x0A, 0x0D]
    (by decide) (by decide) (by decide) (by decide)

/-! ## C3 and C8: the key encoder -/

/-- C3 (counterexample): the encoder itself applies shift translation:
CHARACTER('1') with shift=true encodes to `"!"` (0x21), not to `"1"`
(0x31), and CHARACTER('a') with shift=true encodes to `"A"`, exactly as
`TerminalLogicTest.ShiftModifier` asserts — refuting the claim that the
code point is passed through regardless of the shift flag. -/
theorem process_key_shift_translates :
    TerminalLogic.process_key (KeyInput.ofChar 0x31 true false) = [0x21] ∧
    TerminalLogic.process_key (KeyInput.ofChar 0x31 true false) ≠ [0x31] ∧
    TerminalLogic.process_key (KeyInput.ofChar 0x61 true false) = [0x41] := by
  decide

/-- C3 (amended): with no modifiers the encoder returns the UTF-8
encoding of the code point unchanged; with shift=true the encoder itself
translates — letters a–z are uppercased and '1' maps to '!' (per the
ShiftModifier unit test) — rather than leaving shift handling to the
upstream keyboard reader. -/
theorem process_key_character_encoding :
    (∀ c : Nat, TerminalLogic.process_key (KeyInput.ofChar c false false) = utf8_encode c) ∧
    (∀ c : Nat, 0x61 ≤ c → c ≤ 0x7A →
      TerminalLogic.process_key (KeyInput.ofChar c true false) = [c - 0x20]) ∧
    TerminalLogic.process_key (KeyInput.ofChar 0x31 true false) = [0x21] := by
  refine ⟨?_, ?_, by decide⟩
  · intro c
    rfl
  · intro c hl hu
    show utf8_encode (shift_translate c) = [c - 0x20]
    unfold shift_translate
    rw [if_pos ⟨hl, hu⟩]
    unfold utf8_encode
    rw [if_pos (show c - 0x20 < 0x80 by omega)]

/-- C3 (witness): the amended encoding law at concrete inputs. -/
theorem process_key_character_encoding_witness :
    TerminalLogic.process_key (KeyInput.ofChar 0x68 false false) = [0x68] ∧
    TerminalLogic.process_key (KeyInput.ofChar 0x62 true false) = [0x42] :=
  ⟨(process_key_character_encoding.1 0x68).trans (by decide),
   process_key_character_encoding.2.1 0x62 (by decide) (by decide)⟩

/-- C8: for every CHARACTER key event with ctrl=true whose code point
lies in `@`..`_` or `a`..`z`, the encoder returns exactly one byte, the
uppercased letter minus 0x40 (so Ctrl+A = 0x01, Ctrl+Z = 0x1A,
Ctrl+@ = 0x00), regardless of the shift flag. -/
theorem ctrl_key_encoding (c : Nat) (shift : Bool)
    (h : (0x40 ≤ c ∧ c ≤ 0x5F) ∨ (0x61 ≤ c ∧ c ≤ 0x7A)) :
    TerminalLogic.process_key
        { code := .CHARACTER, character := c, mod_shift := shift, mod_ctrl := true } =
      [ascii_upper c - 0x40] := by
  show (if (true = true) ∧ ((0x40 ≤ c ∧ c ≤ 0x5F) ∨ (0x61 ≤ c ∧ c ≤ 0x7A)) then
      [ascii_upper c - 0x40]
    else if shift = true then utf8_encode (shift_translate c) else utf8_encode c) = _
  rw [if_pos ⟨rfl, h⟩]

/-- C8 (witness): Ctrl+A, Ctrl+Z, Ctrl+@ at concrete inputs. -/
theorem ctrl_key_encoding_witness :
    TerminalLogic.process_key ⟨.CHARACTER, 0x61, false, true⟩ = [0x01] ∧
    TerminalLogic.process_key ⟨.CHARACTER, 0x7A, false, true⟩ = [0x1A] ∧
    TerminalLogic.process_key ⟨.CHARACTER, 0x40, false, true⟩ = [0x00] := by
  refine ⟨?_, ?_, ?_⟩ <;> rw [ctrl_key_encoding _ _ (by decide)] <;> decide

/-! ## C9: the keyboard fast path for control bytes -/

/-- For characters above every ncurses special-key constant the switch
falls through to the CHARACTER default branch. -/
theorem keyboard_key_large (ch : Nat) (h : 361 ≤ ch) :
    keyboard_key ch =
      { code := .CHARACTER, character := ch,
        mod_shift := decide (0x41 ≤ ch ∧ ch ≤ 0x5A) } := by
  unfold keyboard_key
  iterate 26 rw [if_neg (by omega)]

/-- Below that bound the absence of ENTER/TAB/ESCAPE for `ch > 0x1F` is
checked exhaustively. -/
theorem keyboard_key_small_no_ctrl_codes :
    ∀ ch : Nat, ch < 361 → 0x1F < ch →
      (keyboard_key ch).code ≠ KeyCode.ENTER ∧ (keyboard_key ch).code ≠ KeyCode.TAB ∧
      (keyboard_key ch).code ≠ KeyCode.ESCAPE := by decide

/-- C9: in `SystemInterface::process_keyboard_input` every keyboard
character ≤ 0x1F is written verbatim as a single byte before key
classification; consequently for the remaining characters (> 0x1F) the
switch can never classify ENTER, TAB or ESCAPE (their cases match
`'\n'`, `'\r'`, `'\t'`, 27, all ≤ 0x1F), and a keyboard newline byte is
forwarded as 0x0A — the encoder's ENTER→0x0D mapping (which does exist)
is never applied to it. -/
theorem keyboard_ctrl_bypass :
    (∀ ch : Nat, ch ≤ 0x1F → process_keyboard_input ch = [ch]) ∧
    (∀ ch : Nat, 0x1F < ch →
      (keyboard_key ch).code ≠ KeyCode.ENTER ∧ (keyboard_key ch).code ≠ KeyCode.TAB ∧
      (keyboard_key ch).code ≠ KeyCode.ESCAPE) ∧
    process_keyboard_input 0x0A = [0x0A] ∧
    TerminalLogic.process_key { code := KeyCode.ENTER, character := 0x0A } = [0x0D] := by
  refine ⟨?_, ?_, by decide, by decide⟩
  · intro ch h
    unfold process_keyboard_input
    rw [if_pos h]
  · intro ch h
    by_cases hbig : 361 ≤ ch
    · rw [keyboard_key_large ch hbig]
      exact ⟨fun hx => KeyCode.noConfusion hx, fun hx => KeyCode.noConfusion hx,
        fun hx => KeyCode.noConfusion hx⟩
    · exact keyboard_key_small_no_ctrl_codes ch (by omega) h

/-- C9 (witness): a control byte bypasses the encoder; a printable is
classified away from ENTER. -/
theorem keyboard_ctrl_bypass_witness :
    process_keyboard_input 0x03 = [0x03] ∧ (keyboard_key 0x41).code ≠ KeyCode.ENTER :=
  ⟨keyboard_ctrl_bypass.1 0x03 (by decide), (keyboard_ctrl_bypass.2.1 0x41 (by decide)).1⟩

/-! ## C10: dirty-row index filtering -/

theorem mark_dirty_rows_cons (dl : List Bool) (r : Int) (rows : List Int) :
    mark_dirty_rows dl (r :: rows) =
      mark_dirty_rows (if 0 ≤ r ∧ r.toNat < dl.length then dl.set r.toNat true else dl)
        rows := rfl

theorem mark_dirty_rows_length (rows : List Int) : ∀ dl : List Bool,
    (mark_dirty_rows dl rows).length = dl.length := by
  induction rows with
  | nil => intro dl; rfl
  | cons r rs ih =>
    intro dl
    rw [mark_dirty_rows_cons, ih]
    split_ifs <;> simp

theorem mark_dirty_rows_getElem (rows : List Int) : ∀ (dl : List Bool) (i : Nat),
    i < dl.length →
    (mark_dirty_rows dl rows)[i]? = some (dl.getD i false || rows.contains (i : Int)) := by
  induction rows with
  | nil =>
    intro dl i hi
    simp [mark_dirty_rows, List.getElem?_eq_getElem hi, List.getD_eq_getElem _ _ hi]
  | cons r rs ih =>
    intro dl i hi
    rw [mark_dirty_rows_cons]
    by_cases hcase : 0 ≤ r ∧ r.toNat < dl.length
    · rw [if_pos hcase]
      have hlen : i < (dl.set r.toNat true).length := by simp [hi]
      rw [ih _ i hlen]
      by_cases heq : r.toNat = i
      · have hri : r = (i : Int) := by omega
        have h1 : (dl.set r.toNat true).getD i false = true := by
          simp [List.getD, heq, List.getElem?_set, hi]
        rw [h1]
        simp [List.contains_cons, hri]
      · have h1 : (dl.set r.toNat true).getD i false = dl.getD i false := by
          simp [List.getD, List.getElem?_set, heq]
        rw [h1]
        simp [List.contains_cons, show ¬((i : Int) = r) by omega]
    · rw [if_neg hcase, ih _ i hi]
      simp [List.contains_cons, show ¬((i : Int) = r) by omega]

/-- C10: the dirty-row marking loop of `process_pty_input` preserves the
length of `dirty_lines`, sets index i exactly when i was already set or
the core returned row i (an in-range index), and an out-of-range index
(negative, or ≥ the vector length) is silently discarded — the vector is
never indexed out of bounds regardless of what the core returns. -/
theorem dirty_row_filtering_safe (dl : List Bool) (rows : List Int) :
    (mark_dirty_rows dl rows).length = dl.length ∧
    (∀ i : Nat, i < dl.length →
      (mark_dirty_rows dl rows)[i]? = some (dl.getD i false || rows.contains (i : Int))) ∧
    (∀ r : Int, r < 0 ∨ (dl.length : Int) ≤ r →
      mark_dirty_rows dl (r :: rows) = mark_dirty_rows dl rows) := by
  refine ⟨mark_dirty_rows_length rows dl, mark_dirty_rows_getElem rows dl, ?_⟩
  intro r h
  rw [mark_dirty_rows_cons, if_neg (by omega)]

/-- C10 (witness): filtering at a concrete vector and row list containing
an in-range, an above-range and a negative index. -/
theorem dirty_row_filtering_safe_witness :
    (mark_dirty_rows [false, false, false] [0, 5, -2, 2]).length = 3 ∧
    (mark_dirty_rows [false, false, false] [0, 5, -2, 2])[1]? = some false ∧
    mark_dirty_rows [false, false, false] ((-7 : Int) :: [0]) =
      mark_dirty_rows [false, false, false] [0] :=
  ⟨(dirty_row_filtering_safe [false, false, false] [0, 5, -2, 2]).1,
   (dirty_row_filtering_safe [false, false, false] [0, 5, -2, 2]).2.1 1 (by decide),
   (dirty_row_filtering_safe [false, false, false] [0]).2.2 (-7) (by decide)⟩
